import Mathlib

/-!
Verification of the NoirNote Active-Session / Result-Ledger / Stats-Aggregation /
Leaderboard subsystem.  The definitions below are a shallow embedding of the
TypeScript client code:

* `CaseResult`, `saveCaseResult`            — src/lib/caseResult.client.ts
* `UserStats`, `updateUserStats` and the
  ledger-scan recompute (`recomputeStats`)  — src/lib/userStats.client.ts
* `LeaderboardEntry`, `updateCaseLeaderboard` — src/lib/leaderboard.client.ts
* `ActiveCase`, `initializeActiveCase`      — src/lib/activeCase.client.ts
* `PENALTY_MS`, `onSubmitReport`,
  `currentDuration`                         — src/app/case/[caseId]/CaseClient.tsx
* `Case`, `case001`, `cases`, `getCaseById` — src/lib/cases.ts, src/lib/cases/case-001.ts

JavaScript numbers are embedded as `Int` (all quantities involved are integral:
millisecond timestamps, counters, scores).  `Math.round(a / b)` for integral
`a`, positive integral `b` is `⌊a/b + 1/2⌋ = ⌊(2a+b)/(2b)⌋`, written `jsRound`.
`Math.floor(a / b)` is `Int.fdiv`.  A JS `Map` (insertion-ordered, unique keys)
is embedded as an association list with in-place update.  The stable JS
`Array.prototype.sort` (ES2019 requires stability) is embedded as insertion
sort, which is stable; a stable sort under a total preorder comparator is a
uniquely determined function, so this is extensionally the sort of the source.
-/

namespace NoirNote

/-- Record of a single submitted attempt (type `CaseResult`,
src/lib/caseResult.client.ts).  `score` is an optional field, hence
`Option Int`; `finishedAt` is a millisecond timestamp.  The
`createdAt` server-timestamp placeholder is metadata and omitted. -/
structure CaseResult where
  uid : String
  caseId : String
  finishedAt : Int
  durationMs : Int
  penaltyMs : Int
  attempts : Int
  isWin : Bool
  score : Option Int
deriving DecidableEq

/-- JS `Math.round (num / den)` for integers with `den > 0`:
`Math.round x = ⌊x + 1/2⌋`, so this is `⌊(2*num + den) / (2*den)⌋`. -/
def jsRound (num den : Int) : Int := Int.fdiv (2 * num + den) (2 * den)

/-- User statistics document (type `UserStats`, src/lib/userStats.client.ts).
The `lastUpdated` server-timestamp placeholder is metadata and omitted. -/
structure UserStats where
  uid : String
  totalScore : Int
  solvedCases : Int
  averageTimeMs : Int
  totalAttempts : Int
deriving DecidableEq

/-- The ledger query of `updateUserStats`:
`query(resultsRef, where("uid","==",uid), where("isWin","==",true))`. -/
def queryWins (uid : String) (results : List CaseResult) : List CaseResult :=
  results.filter (fun res => res.uid == uid && res.isWin)

/-- One insertion step of the stable ascending sort by `finishedAt`
(`allResults.sort((a, b) => a.finishedAt - b.finishedAt)`). -/
def insertByFinishedAt (a : CaseResult) : List CaseResult → List CaseResult
  | [] => [a]
  | b :: t =>
    if a.finishedAt ≤ b.finishedAt then a :: b :: t else b :: insertByFinishedAt a t

/-- Stable ascending sort by `finishedAt`; embeds the source call
`allResults.sort((a, b) => a.finishedAt - b.finishedAt)`. -/
def sortByFinishedAt : List CaseResult → List CaseResult
  | [] => []
  | x :: xs => insertByFinishedAt x (sortByFinishedAt xs)

/-- JS `Map.get` on an insertion-ordered association list. -/
def mapGet : List (String × CaseResult) → String → Option CaseResult
  | [], _ => none
  | (k1, v) :: t, k => if k1 = k then some v else mapGet t k

/-- JS `Map.set`: replaces the value in place if the key is present,
otherwise appends the new binding at the end. -/
def mapSet : List (String × CaseResult) → String → CaseResult → List (String × CaseResult)
  | [], k, v => [(k, v)]
  | (k1, v1) :: t, k, v =>
    if k1 = k then (k, v) :: t else (k1, v1) :: mapSet t k v

/-- Loop body of the dedup fold in `updateUserStats`:
`const existing = firstSuccessfulAttempts.get(result.caseId);
 if (!existing || result.finishedAt < existing.finishedAt)
   firstSuccessfulAttempts.set(result.caseId, result);`. -/
def firstStep (m : List (String × CaseResult)) (r : CaseResult) :
    List (String × CaseResult) :=
  match mapGet m r.caseId with
  | none => mapSet m r.caseId r
  | some existing =>
    if r.finishedAt < existing.finishedAt then mapSet m r.caseId r else m

/-- The `firstSuccessfulAttempts` map built by the dedup loop of
`updateUserStats` over the (sorted) winning records. -/
def firstSuccessfulAttempts (l : List CaseResult) : List (String × CaseResult) :=
  l.foldl firstStep []

/-- Source expression `result.score || 0` — the stored score, or `0` when missing. -/
def score0 (r : CaseResult) : Int := r.score.getD 0

/-- Accumulation `totalScore += score` over the entries of the dedup map. -/
def sumScore (m : List (String × CaseResult)) : Int :=
  m.foldl (fun acc p => acc + score0 p.2) 0

/-- Accumulation `totalDurationMs += result.durationMs` over the map. -/
def sumDuration (m : List (String × CaseResult)) : Int :=
  m.foldl (fun acc p => acc + p.2.durationMs) 0

/-- Accumulation `totalAttempts += result.attempts` over the map. -/
def sumAttempts (m : List (String × CaseResult)) : Int :=
  m.foldl (fun acc p => acc + p.2.attempts) 0

/-- The aggregate block of `updateUserStats`: `solvedCases` is the map size
(the map has unique keys by construction), `averageTimeMs` is
`solvedCases > 0 ? Math.round(totalDurationMs / solvedCases) : 0`. -/
def statsFromMap (uid : String) (m : List (String × CaseResult)) : UserStats :=
  { uid := uid
    totalScore := sumScore m
    solvedCases := (m.length : Int)
    averageTimeMs :=
      if 0 < (m.length : Int) then jsRound (sumDuration m) (m.length : Int) else 0
    totalAttempts := sumAttempts m }

/-- The full ledger-scan recompute path of `updateUserStats`
(src/lib/userStats.client.ts lines 84-184): query all winning records of the
user, sort ascending by `finishedAt`, dedup to the first successful attempt
per `caseId`, aggregate. -/
def recomputeStats (uid : String) (results : List CaseResult) : UserStats :=
  statsFromMap uid (firstSuccessfulAttempts (sortByFinishedAt (queryWins uid results)))

/-- Write mode of the stats document write: `setDoc(..., { merge: false })`
is `replace`, `setDoc(..., { merge: true })` is `merge`. -/
inductive WriteMode
  | replace
  | merge
deriving DecidableEq

/-- The stats write performed by one `updateUserStats` call. -/
structure StatsWrite where
  mode : WriteMode
  stats : UserStats
deriving DecidableEq

/-- Function `updateUserStats(uid, caseScore, durationMs, attempts)`, by
the path taken.  `ledgerReachable = true`: the `getDocs` ledger query
succeeds and the recomputed stats are written with `{ merge: false }`.
`ledgerReachable = false` (offline): the cached stats receive the simple
increment (`totalScore + caseScore`, `solvedCases + 1`, running mean for
`averageTimeMs`, `totalAttempts + attempts`) written with `{ merge: true }`;
with no cached document a fresh single-case document is merged in. -/
def updateUserStats (ledgerReachable : Bool) (uid : String)
    (caseScore durationMs attempts : Int) (results : List CaseResult)
    (cached : Option UserStats) : StatsWrite :=
  if ledgerReachable then
    { mode := WriteMode.replace, stats := recomputeStats uid results }
  else
    match cached with
    | some existing =>
      { mode := WriteMode.merge
        stats :=
          { uid := uid
            totalScore := existing.totalScore + caseScore
            solvedCases := existing.solvedCases + 1
            averageTimeMs :=
              jsRound (existing.averageTimeMs * existing.solvedCases + durationMs)
                (existing.solvedCases + 1)
            totalAttempts := existing.totalAttempts + attempts } }
    | none =>
      { mode := WriteMode.merge
        stats :=
          { uid := uid
            totalScore := caseScore
            solvedCases := 1
            averageTimeMs := durationMs
            totalAttempts := attempts } }

/-- The store state the stats recompute touches: the `results` collection is
only read, the `users/{uid}/stats/main` document is written. -/
structure StoreState where
  results : List CaseResult
  stats : Option UserStats
deriving DecidableEq

/-- The successful ledger-scan path of `updateUserStats` as a transition on
the store: the recomputed `UserStats` fully replaces the stats document
(`{ merge: false }`); the results collection is untouched (it is only
queried). -/
def updateUserStatsOnline (uid : String) (s : StoreState) : StoreState :=
  { s with stats := some (recomputeStats uid s.results) }

/-- Per-case leaderboard entry (type `LeaderboardEntry`,
src/lib/leaderboard.client.ts); `updatedAt` metadata omitted, and the
global-leaderboard-only fields (`solvedCases`, `rank`) are not part of a
per-case write. -/
structure LeaderboardEntry where
  uid : String
  displayName : String
  photoURL : Option String
  score : Int
  durationMs : Int
  attempts : Int
deriving DecidableEq

/-- Function `updateCaseLeaderboard` (src/lib/leaderboard.client.ts lines
85-109) of the currently stored entry for `(caseId, uid)`: read the existing
entry; if it exists and `existingData.score >= score`, return without
writing; otherwise write the new entry (all entry fields are supplied, so the
`{ merge: true }` write replaces every field). -/
def updateCaseLeaderboard (stored : Option LeaderboardEntry) (uid displayName : String)
    (photoURL : Option String) (score durationMs attempts : Int) :
    Option LeaderboardEntry :=
  match stored with
  | some existingData =>
    if existingData.score ≥ score then some existingData
    else some { uid := uid, displayName := displayName, photoURL := photoURL,
                score := score, durationMs := durationMs, attempts := attempts }
  | none =>
    some { uid := uid, displayName := displayName, photoURL := photoURL,
           score := score, durationMs := durationMs, attempts := attempts }

/-- A sequence of `updateCaseLeaderboard` calls for one `(userId, caseId)`
with the given scores (fixed user fields, concrete duration/attempts). -/
def upsertScores (stored : Option LeaderboardEntry) (scores : List Int) :
    Option LeaderboardEntry :=
  scores.foldl (fun st sc => updateCaseLeaderboard st "user-1" "Name" none sc 1000 1) stored

/-- Status of an active session: playing or finished. -/
inductive CaseStatus
  | playing
  | finished
deriving DecidableEq

/-- Active session document (type `ActiveCase`, src/lib/activeCase.client.ts).
The opaque `gridState` puzzle snapshot and the `updatedAt` metadata are
omitted: the submission logic only carries them through unchanged, and no
duration field exists — duration is derived on read. -/
structure ActiveCase where
  caseId : String
  status : CaseStatus
  startedAt : Int
  attempts : Int
  penaltyMs : Int
deriving DecidableEq

/-- Function `initializeActiveCase` (src/lib/activeCase.client.ts): fresh session with
`status := playing, startedAt := Date.now(), attempts := 0, penaltyMs := 0`. -/
def initializeActiveCase (caseId : String) (now : Int) : ActiveCase :=
  { caseId := caseId, status := CaseStatus.playing, startedAt := now,
    attempts := 0, penaltyMs := 0 }

/-- Constant `PENALTY_MS = 5 * 60 * 1000` (CaseClient.tsx line 175). -/
def PENALTY_MS : Int := 5 * 60 * 1000

/-- Solution triple of a case (src/types/game.ts). -/
structure Solution where
  suspectId : String
  locationId : String
  weaponId : String
deriving DecidableEq

/-- Case catalogue entry (type `Case`, src/types/game.ts); only the fields the
submission logic reads are kept (title/briefing/clue text keys and the
suspect/location/weapon display lists are UI-only). -/
structure Case where
  id : String
  difficulty : String
  solution : Solution
deriving DecidableEq

/-- Catalogue entry `case001` (src/lib/cases/case-001.ts): solution
`(suspect-003, location-001, weapon-001)`. -/
def case001 : Case :=
  { id := "case-001", difficulty := "easy",
    solution := { suspectId := "suspect-003", locationId := "location-001",
                  weaponId := "weapon-001" } }

/-- The case catalogue `cases` (src/lib/cases.ts). -/
def cases : List Case :=
  [ case001,
    { id := "case-002", difficulty := "medium",
      solution := { suspectId := "suspect-004", locationId := "location-005",
                    weaponId := "weapon-006" } } ]

/-- Lookup `getCaseById` (src/lib/cases.ts): `cases.find((c) => c.id === caseId)`. -/
def getCaseById (caseId : String) : Option Case :=
  cases.find? (fun c => c.id == caseId)

/-- Outcome type of the result modal state set by `onSubmitReport`. -/
inductive ResultType
  | success
  | failure
deriving DecidableEq

/-- The `ResultState` object passed to the result modal
(`{type, duration, attempts, penaltyMs}`, CaseClient.tsx). -/
structure ResultState where
  type : ResultType
  duration : Int
  attempts : Int
  penaltyMs : Int
deriving DecidableEq

/-- Arguments of the `saveCaseResult` call issued by `onSubmitReport`.
The source calls `saveCaseResult(caseData.id, durationMs, penaltyMs,
newAttempts, isWin)` with no sixth argument, so the optional `score`
parameter is always absent (`none`) on this path. -/
structure LedgerAppend where
  caseId : String
  durationMs : Int
  penaltyMs : Int
  attempts : Int
  isWin : Bool
  score : Option Int
deriving DecidableEq

/-- The observable effects of one `onSubmitReport` run that proceeds past the
guard: the session written by `saveActiveCase`, the ledger append issued via
`saveCaseResult`, and the `ResultState` reported to the player. -/
structure SubmitEffects where
  savedCase : ActiveCase
  append : LedgerAppend
  result : ResultState
deriving DecidableEq

/-- Handler `onSubmitReport` (CaseClient.tsx lines 275-344).  Guard:
`if (!allSelected || isSubmitting || isModalOpen || !activeCase) return;`
with `allSelected = finalSuspect && finalLocation && finalWeapon`
(truthiness of the three selection strings).  Note the guard performs no
check of `activeCase.status`.  Validation compares the selected triple
against `caseData.solution`.  On a correct answer: `status := finished`,
`attempts + 1`, penalty unchanged, `durationMs = now - startedAt +
penaltyMs`, a winning ledger append, success result with
`duration = Math.floor(durationMs / 1000)`.  On a wrong answer:
`attempts + 1`, `penaltyMs + PENALTY_MS`, a losing ledger append carrying the
increased penalty, failure result. -/
def onSubmitReport (caseData : Case) (finalSuspect finalLocation finalWeapon : String)
    (isSubmitting isModalOpen : Bool) (activeCase : Option ActiveCase)
    (now : Int) : Option SubmitEffects :=
  let allSelected := !(finalSuspect == "") && !(finalLocation == "") && !(finalWeapon == "")
  if !allSelected || isSubmitting || isModalOpen || activeCase.isNone then none
  else
    match activeCase with
    | none => none
    | some ac =>
      let isCorrect :=
        finalSuspect == caseData.solution.suspectId &&
        finalLocation == caseData.solution.locationId &&
        finalWeapon == caseData.solution.weaponId
      let newAttempts := ac.attempts + 1
      if isCorrect then
        let durationMs := now - ac.startedAt + ac.penaltyMs
        some
          { savedCase := { ac with status := CaseStatus.finished, attempts := newAttempts }
            append := { caseId := caseData.id, durationMs := durationMs,
                        penaltyMs := ac.penaltyMs, attempts := newAttempts,
                        isWin := true, score := none }
            result := { type := ResultType.success, duration := Int.fdiv durationMs 1000,
                        attempts := newAttempts, penaltyMs := ac.penaltyMs } }
      else
        let newPenaltyMs := ac.penaltyMs + PENALTY_MS
        let durationMs := now - ac.startedAt + newPenaltyMs
        some
          { savedCase := { ac with attempts := newAttempts, penaltyMs := newPenaltyMs }
            append := { caseId := caseData.id, durationMs := durationMs,
                        penaltyMs := newPenaltyMs, attempts := newAttempts,
                        isWin := false, score := none }
            result := { type := ResultType.failure, duration := Int.fdiv durationMs 1000,
                        attempts := newAttempts, penaltyMs := newPenaltyMs } }

/-- The live timer read (CaseClient.tsx):
`activeCase ? Math.floor((Date.now() - activeCase.startedAt +
activeCase.penaltyMs) / 1000) : 0` — duration is recomputed from the session
on every read, never stored. -/
def currentDuration (activeCase : Option ActiveCase) (now : Int) : Int :=
  match activeCase with
  | some ac => Int.fdiv (now - ac.startedAt + ac.penaltyMs) 1000
  | none => 0

/-- The record document built by `saveCaseResult`
(src/lib/caseResult.client.ts lines 41-108): `score` is attached only when
`isWin` is true and a valid score value was passed. -/
def buildResultRecord (uid caseId : String) (now durationMs penaltyMs attempts : Int)
    (isWin : Bool) (score : Option Int) : CaseResult :=
  { uid := uid, caseId := caseId, finishedAt := now, durationMs := durationMs,
    penaltyMs := penaltyMs, attempts := attempts, isWin := isWin,
    score := if isWin then score else none }

/-- The `results` collection together with the document-id generator:
`addDoc` always creates a fresh, distinct document id.  Fresh ids are
modelled by a counter; the invariant that every stored id is below the
counter makes new ids distinct from all existing ones. -/
structure ResultsCollection where
  nextId : Nat
  docs : List (Nat × CaseResult)
deriving DecidableEq

/-- Writer `saveCaseResult` (src/lib/caseResult.client.ts): build the record and
`addDoc` it into the `results` collection under a fresh auto-generated id —
never a write to an existing document. -/
def saveCaseResult (col : ResultsCollection) (uid caseId : String)
    (now durationMs penaltyMs attempts : Int) (isWin : Bool) (score : Option Int) :
    ResultsCollection :=
  { nextId := col.nextId + 1
    docs := col.docs ++
      [(col.nextId, buildResultRecord uid caseId now durationMs penaltyMs attempts isWin score)] }

/-- Ascending order by `finishedAt` of the sorted list of winning records. -/
def SortedByFin (l : List CaseResult) : Prop :=
  l.Pairwise (fun a b => a.finishedAt ≤ b.finishedAt)

/-- Insertion of a record after all elements with `finishedAt` less than or
equal to its own: this is where a stable sort places an element appended at
the end of the input. -/
def insertLast (a : CaseResult) : List CaseResult → List CaseResult
  | [] => [a]
  | b :: t =>
    if b.finishedAt ≤ a.finishedAt then b :: insertLast a t else a :: b :: t

/-- First winning record of case `c1` for the C1 witness scenario. -/
def sampleWin1 : CaseResult :=
  { uid := "u1", caseId := "c1", finishedAt := 10, durationMs := 1000,
    penaltyMs := 0, attempts := 1, isWin := true, score := some 50 }

/-- Later winning record of the same case with a higher score. -/
def sampleWin2 : CaseResult :=
  { uid := "u1", caseId := "c1", finishedAt := 20, durationMs := 500,
    penaltyMs := 0, attempts := 2, isWin := true, score := some 99 }

/-- A losing record: used to witness the empty-winning-set guard. -/
def sampleLoss : CaseResult :=
  { uid := "u1", caseId := "c1", finishedAt := 30, durationMs := 700,
    penaltyMs := 300000, attempts := 1, isWin := false, score := none }

/-- A session whose stored status is already `finished` (after a correct
submission), used to exercise `onSubmitReport` on a finished session. -/
def finishedSession : ActiveCase :=
  { caseId := "case-001", status := CaseStatus.finished, startedAt := 0,
    attempts := 1, penaltyMs := 0 }

/-- Effects of a wrong submission at time 1000 on a session started at 0
(used by witnesses): one attempt charged, one 5-minute penalty. -/
def wrongEffect0 : SubmitEffects :=
  { savedCase := { caseId := "case-001", status := CaseStatus.playing, startedAt := 0,
                   attempts := 1, penaltyMs := 300000 }
    append := { caseId := "case-001", durationMs := 301000, penaltyMs := 300000,
                attempts := 1, isWin := false, score := none }
    result := { type := ResultType.failure, duration := 301, attempts := 1,
                penaltyMs := 300000 } }

/-- Effects of a correct submission at time 5000 on a fresh session started
at 0 (used by witnesses): session finished, winning append without a score. -/
def winEffect0 : SubmitEffects :=
  { savedCase := { caseId := "case-001", status := CaseStatus.finished, startedAt := 0,
                   attempts := 1, penaltyMs := 0 }
    append := { caseId := "case-001", durationMs := 5000, penaltyMs := 0,
                attempts := 1, isWin := true, score := none }
    result := { type := ResultType.success, duration := 5, attempts := 1,
                penaltyMs := 0 } }

/-! Lemmas about the JS-Map embedding and the dedup fold. -/

theorem mapGet_mapSet_self (m : List (String × CaseResult)) (k : String) (v : CaseResult) :
    mapGet (mapSet m k v) k = some v := by
  induction m with
  | nil => simp [mapSet, mapGet]
  | cons p t ih =>
    obtain ⟨k1, v1⟩ := p
    by_cases h : k1 = k <;> simp [mapSet, mapGet, h, ih]

theorem mapGet_mapSet_ne (m : List (String × CaseResult)) {c k : String} (v : CaseResult)
    (h : c ≠ k) : mapGet (mapSet m k v) c = mapGet m c := by
  induction m with
  | nil => simp [mapSet, mapGet, Ne.symm h]
  | cons p t ih =>
    obtain ⟨k1, v1⟩ := p
    by_cases h1 : k1 = k
    · subst h1
      simp [mapSet, mapGet, Ne.symm h]
    · simp [mapSet, mapGet, h1, ih]

theorem firstStep_of_get_none {m : List (String × CaseResult)} {r : CaseResult}
    (hm : mapGet m r.caseId = none) : firstStep m r = mapSet m r.caseId r := by
  unfold firstStep
  rw [hm]

theorem firstStep_of_lt {m : List (String × CaseResult)} {r e : CaseResult}
    (hm : mapGet m r.caseId = some e) (hlt : r.finishedAt < e.finishedAt) :
    firstStep m r = mapSet m r.caseId r := by
  unfold firstStep
  rw [hm]
  exact if_pos hlt

theorem firstStep_of_not_lt {m : List (String × CaseResult)} {r e : CaseResult}
    (hm : mapGet m r.caseId = some e) (hlt : ¬ r.finishedAt < e.finishedAt) :
    firstStep m r = m := by
  unfold firstStep
  rw [hm]
  exact if_neg hlt

theorem firstStep_get_self (m : List (String × CaseResult)) (r : CaseResult) :
    ∃ w, mapGet (firstStep m r) r.caseId = some w ∧ w.finishedAt ≤ r.finishedAt ∧
      (w = r ∨ mapGet m r.caseId = some w) := by
  rcases hm : mapGet m r.caseId with _ | e
  · rw [firstStep_of_get_none hm]
    exact ⟨r, mapGet_mapSet_self m r.caseId r, le_refl _, Or.inl rfl⟩
  · by_cases hlt : r.finishedAt < e.finishedAt
    · rw [firstStep_of_lt hm hlt]
      exact ⟨r, mapGet_mapSet_self m r.caseId r, le_refl _, Or.inl rfl⟩
    · rw [firstStep_of_not_lt hm hlt]
      exact ⟨e, hm, by omega, Or.inr rfl⟩

theorem firstStep_get_ne (m : List (String × CaseResult)) (r : CaseResult) {c : String}
    (h : c ≠ r.caseId) : mapGet (firstStep m r) c = mapGet m c := by
  rcases hm : mapGet m r.caseId with _ | e
  · rw [firstStep_of_get_none hm]
    exact mapGet_mapSet_ne m r h
  · by_cases hlt : r.finishedAt < e.finishedAt
    · rw [firstStep_of_lt hm hlt]
      exact mapGet_mapSet_ne m r h
    · rw [firstStep_of_not_lt hm hlt]

theorem firstStep_mono (m : List (String × CaseResult)) (r : CaseResult) {c : String}
    {v : CaseResult} (h : mapGet m c = some v) :
    ∃ w, mapGet (firstStep m r) c = some w ∧ w.finishedAt ≤ v.finishedAt := by
  by_cases hc : c = r.caseId
  · subst hc
    by_cases hlt : r.finishedAt < v.finishedAt
    · rw [firstStep_of_lt h hlt]
      exact ⟨r, mapGet_mapSet_self m r.caseId r, by omega⟩
    · rw [firstStep_of_not_lt h hlt]
      exact ⟨v, h, le_refl _⟩
  · rw [firstStep_get_ne m r hc]
    exact ⟨v, h, le_refl _⟩

theorem firstStep_provenance (m : List (String × CaseResult)) (x : CaseResult)
    {c : String} {v : CaseResult} (h : mapGet (firstStep m x) c = some v) :
    (v = x ∧ x.caseId = c) ∨ mapGet m c = some v := by
  by_cases hc : c = x.caseId
  · subst hc
    rcases hm : mapGet m x.caseId with _ | e
    · rw [firstStep_of_get_none hm, mapGet_mapSet_self] at h
      exact Or.inl ⟨(Option.some_injective _ h).symm, rfl⟩
    · by_cases hlt : x.finishedAt < e.finishedAt
      · rw [firstStep_of_lt hm hlt, mapGet_mapSet_self] at h
        exact Or.inl ⟨(Option.some_injective _ h).symm, rfl⟩
      · rw [firstStep_of_not_lt hm hlt] at h
        rw [hm] at h
        exact Or.inr h
  · rw [firstStep_get_ne m x hc] at h
    exact Or.inr h

theorem foldl_firstStep_mono (l : List CaseResult) :
    ∀ (m : List (String × CaseResult)) {c : String} {v : CaseResult},
      mapGet m c = some v →
      ∃ w, mapGet (l.foldl firstStep m) c = some w ∧ w.finishedAt ≤ v.finishedAt := by
  induction l with
  | nil => exact fun m _ _ h => ⟨_, h, le_refl _⟩
  | cons x t ih =>
    intro m c v h
    obtain ⟨w1, hw1, hle1⟩ := firstStep_mono m x h
    obtain ⟨w, hw, hle⟩ := ih (firstStep m x) hw1
    exact ⟨w, hw, le_trans hle hle1⟩

theorem foldl_firstStep_dominates (l : List CaseResult) :
    ∀ (m : List (String × CaseResult)) (e : CaseResult), e ∈ l →
      ∃ w, mapGet (l.foldl firstStep m) e.caseId = some w ∧
        w.finishedAt ≤ e.finishedAt := by
  induction l with
  | nil => intro m e he; cases he
  | cons x t ih =>
    intro m e he
    rcases List.mem_cons.mp he with he | he
    · subst he
      obtain ⟨w1, hw1, hle1, _⟩ := firstStep_get_self m e
      obtain ⟨w, hw, hle⟩ := foldl_firstStep_mono t (firstStep m e) hw1
      exact ⟨w, hw, le_trans hle hle1⟩
    · exact ih (firstStep m x) e he

theorem foldl_firstStep_provenance (l : List CaseResult) :
    ∀ (m : List (String × CaseResult)) {c : String} {v : CaseResult},
      mapGet (l.foldl firstStep m) c = some v →
      (v ∈ l ∧ v.caseId = c) ∨ mapGet m c = some v := by
  induction l with
  | nil => exact fun m _ _ h => Or.inr h
  | cons x t ih =>
    intro m c v h
    rcases ih (firstStep m x) h with ⟨hv, hvc⟩ | h1
    · exact Or.inl ⟨List.mem_cons_of_mem x hv, hvc⟩
    · rcases firstStep_provenance m x h1 with ⟨hv, hvc⟩ | h2
      · subst hv
        exact Or.inl ⟨List.mem_cons_self _ _, hvc⟩
      · exact Or.inr h2

/-! Lemmas about the stable sort by `finishedAt`. -/

theorem insertByFinishedAt_cons_le {a b : CaseResult} (t : List CaseResult)
    (h : a.finishedAt ≤ b.finishedAt) :
    insertByFinishedAt a (b :: t) = a :: b :: t := by
  simp [insertByFinishedAt, h]

theorem insertByFinishedAt_cons_gt {a b : CaseResult} (t : List CaseResult)
    (h : ¬ a.finishedAt ≤ b.finishedAt) :
    insertByFinishedAt a (b :: t) = b :: insertByFinishedAt a t := by
  simp [insertByFinishedAt, h]

theorem mem_insertByFinishedAt {a x : CaseResult} {l : List CaseResult} :
    a ∈ insertByFinishedAt x l ↔ a = x ∨ a ∈ l := by
  induction l with
  | nil => simp [insertByFinishedAt]
  | cons b t ih =>
    by_cases h : x.finishedAt ≤ b.finishedAt
    · rw [insertByFinishedAt_cons_le t h]
      simp
    · rw [insertByFinishedAt_cons_gt t h]
      simp [ih]
      tauto

theorem mem_sortByFinishedAt {a : CaseResult} {l : List CaseResult} :
    a ∈ sortByFinishedAt l ↔ a ∈ l := by
  induction l with
  | nil => simp [sortByFinishedAt]
  | cons x t ih =>
    show a ∈ insertByFinishedAt x (sortByFinishedAt t) ↔ a ∈ x :: t
    rw [mem_insertByFinishedAt, ih]
    simp

theorem sortedByFin_insert {a : CaseResult} {l : List CaseResult}
    (h : SortedByFin l) : SortedByFin (insertByFinishedAt a l) := by
  unfold SortedByFin at h ⊢
  induction l with
  | nil => simp [insertByFinishedAt]
  | cons b t ih =>
    rw [List.pairwise_cons] at h
    obtain ⟨hb, ht⟩ := h
    by_cases hab : a.finishedAt ≤ b.finishedAt
    · rw [insertByFinishedAt_cons_le t hab, List.pairwise_cons]
      refine ⟨?_, ?_⟩
      · intro x hx
        rcases List.mem_cons.mp hx with hx | hx
        · subst hx; exact hab
        · exact le_trans hab (hb x hx)
      · rw [List.pairwise_cons]
        exact ⟨hb, ht⟩
    · rw [insertByFinishedAt_cons_gt t hab, List.pairwise_cons]
      refine ⟨?_, ih ht⟩
      intro x hx
      rcases mem_insertByFinishedAt.mp hx with hx | hx
      · subst hx; omega
      · exact hb x hx

theorem sortedByFin_sortByFinishedAt (l : List CaseResult) :
    SortedByFin (sortByFinishedAt l) := by
  induction l with
  | nil => simp [sortByFinishedAt, SortedByFin]
  | cons x t ih => exact sortedByFin_insert ih

theorem insertLast_cons_le {a b : CaseResult} (t : List CaseResult)
    (h : b.finishedAt ≤ a.finishedAt) :
    insertLast a (b :: t) = b :: insertLast a t := by
  simp [insertLast, h]

theorem insertLast_cons_gt {a b : CaseResult} (t : List CaseResult)
    (h : ¬ b.finishedAt ≤ a.finishedAt) :
    insertLast a (b :: t) = a :: b :: t := by
  simp [insertLast, h]

theorem insertByFinishedAt_insertLast (x r : CaseResult) :
    ∀ s : List CaseResult,
      insertByFinishedAt x (insertLast r s) = insertLast r (insertByFinishedAt x s) := by
  intro s
  induction s with
  | nil =>
    by_cases hxr : x.finishedAt ≤ r.finishedAt
    · simp [insertByFinishedAt, insertLast, hxr]
    · simp [insertByFinishedAt, insertLast, hxr, le_of_lt (lt_of_not_le hxr)]
  | cons b t ih =>
    by_cases hbr : b.finishedAt ≤ r.finishedAt
    · by_cases hxb : x.finishedAt ≤ b.finishedAt
      · have hxr : x.finishedAt ≤ r.finishedAt := le_trans hxb hbr
        simp [insertByFinishedAt, insertLast, hbr, hxb, hxr]
      · simp [insertByFinishedAt, insertLast, hbr, hxb, ih]
    · by_cases hxb : x.finishedAt ≤ b.finishedAt
      · by_cases hxr : x.finishedAt ≤ r.finishedAt
        · simp [insertByFinishedAt, insertLast, hbr, hxb, hxr]
        · simp [insertByFinishedAt, insertLast, hbr, hxb, hxr]
      · have hxr : ¬ x.finishedAt ≤ r.finishedAt := by omega
        simp [insertByFinishedAt, insertLast, hbr, hxb, hxr]

theorem sortByFinishedAt_append_single (l : List CaseResult) (r : CaseResult) :
    sortByFinishedAt (l ++ [r]) = insertLast r (sortByFinishedAt l) := by
  induction l with
  | nil => simp [sortByFinishedAt, insertByFinishedAt, insertLast]
  | cons x t ih =>
    show insertByFinishedAt x (sortByFinishedAt (t ++ [r])) =
      insertLast r (insertByFinishedAt x (sortByFinishedAt t))
    rw [ih, insertByFinishedAt_insertLast]

/-- Key dedup lemma: folding the dedup step over a sorted list into which a
record `r` has been stably inserted gives the same map as folding over the
list without `r`, provided some already-present record of the same case
finished no later than `r` (first-solve-wins: the later record is ignored
entirely). -/
theorem foldl_firstStep_insertLast (r : CaseResult) :
    ∀ (s : List CaseResult) (m : List (String × CaseResult)), SortedByFin s →
      ((∃ e ∈ s, e.caseId = r.caseId ∧ e.finishedAt ≤ r.finishedAt) ∨
        (∃ v, mapGet m r.caseId = some v ∧ v.finishedAt ≤ r.finishedAt)) →
      (insertLast r s).foldl firstStep m = s.foldl firstStep m := by
  intro s
  induction s with
  | nil =>
    intro m _ hyp
    rcases hyp with ⟨e, he, _⟩ | ⟨v, hv, hvle⟩
    · cases he
    · show firstStep m r = m
      exact firstStep_of_not_lt hv (by omega)
  | cons b t ih =>
    intro m hs hyp
    unfold SortedByFin at hs
    rw [List.pairwise_cons] at hs
    obtain ⟨hb, ht⟩ := hs
    by_cases hbr : b.finishedAt ≤ r.finishedAt
    · rw [insertLast_cons_le t hbr]
      show (insertLast r t).foldl firstStep (firstStep m b) = t.foldl firstStep (firstStep m b)
      refine ih (firstStep m b) ht ?_
      rcases hyp with ⟨e, he, hec, hef⟩ | ⟨v, hv, hvle⟩
      · rcases List.mem_cons.mp he with he | he
        · subst he
          obtain ⟨w, hw, hwle, _⟩ := firstStep_get_self m e
          rw [hec] at hw
          exact Or.inr ⟨w, hw, by omega⟩
        · exact Or.inl ⟨e, he, hec, hef⟩
      · obtain ⟨w, hw, hwle⟩ := firstStep_mono m b hv
        exact Or.inr ⟨w, hw, by omega⟩
    · rw [insertLast_cons_gt t hbr]
      have hnr : ∃ v, mapGet m r.caseId = some v ∧ v.finishedAt ≤ r.finishedAt := by
        rcases hyp with ⟨e, he, hec, hef⟩ | hyp
        · rcases List.mem_cons.mp he with he | he
          · subst he; omega
          · have := hb e he; omega
        · exact hyp
      obtain ⟨v, hv, hvle⟩ := hnr
      show (b :: t).foldl firstStep (firstStep m r) = (b :: t).foldl firstStep m
      rw [firstStep_of_not_lt hv (by omega)]

theorem firstSuccessfulAttempts_spec (l : List CaseResult) {c : String} {v : CaseResult}
    (h : mapGet (firstSuccessfulAttempts l) c = some v) :
    v ∈ l ∧ v.caseId = c ∧ ∀ u ∈ l, u.caseId = c → v.finishedAt ≤ u.finishedAt := by
  have h2 : mapGet (l.foldl firstStep []) c = some v := h
  rcases foldl_firstStep_provenance l [] h2 with ⟨hv, hvc⟩ | hnone
  · refine ⟨hv, hvc, ?_⟩
    intro u hu huc
    obtain ⟨w, hw, hwle⟩ := foldl_firstStep_dominates l [] u hu
    rw [huc] at hw
    have hwv : w = v := Option.some_injective _ (hw.symm.trans h2)
    rw [hwv] at hwle
    exact hwle
  · simp [mapGet] at hnone

theorem queryWins_append_win (uid : String) (results : List CaseResult) {r : CaseResult}
    (hu : r.uid = uid) (hw : r.isWin = true) :
    queryWins uid (results ++ [r]) = queryWins uid results ++ [r] := by
  simp [queryWins, List.filter_append, hu, hw]

theorem mem_queryWins {uid : String} {results : List CaseResult} {e : CaseResult} :
    e ∈ queryWins uid results ↔ e ∈ results ∧ e.uid = uid ∧ e.isWin = true := by
  simp [queryWins, List.mem_filter]

theorem recomputeStats_append_later (uid : String) (results : List CaseResult)
    (r : CaseResult) (hu : r.uid = uid) (hw : r.isWin = true)
    (h : ∃ e ∈ results, e.uid = uid ∧ e.isWin = true ∧ e.caseId = r.caseId ∧
      e.finishedAt < r.finishedAt) :
    recomputeStats uid (results ++ [r]) = recomputeStats uid results := by
  obtain ⟨e, he, heu, hew, hec, hef⟩ := h
  have hmem : e ∈ sortByFinishedAt (queryWins uid results) := by
    rw [mem_sortByFinishedAt]
    exact mem_queryWins.mpr ⟨he, heu, hew⟩
  have hmap : (insertLast r (sortByFinishedAt (queryWins uid results))).foldl firstStep [] =
      (sortByFinishedAt (queryWins uid results)).foldl firstStep [] :=
    foldl_firstStep_insertLast r _ []
      (sortedByFin_sortByFinishedAt _) (Or.inl ⟨e, hmem, hec, le_of_lt hef⟩)
  unfold recomputeStats firstSuccessfulAttempts
  rw [queryWins_append_win uid results hu hw, sortByFinishedAt_append_single, hmap]

/-! Claim theorems. -/

/-- C1: the ledger-scan path of `updateUserStats` deduplicates the winning
records of the user by `caseId`, keeping only a record whose `finishedAt` is
minimal for its case (first conjunct: every map entry is a winning record of
that case finishing no later than every other winning record of the case),
and all four aggregates are computed solely from that deduplicated map, so
appending a strictly later winning record for an already-counted `caseId` —
whatever its score — leaves the recomputed `UserStats` unchanged (second
conjunct). -/
theorem updateUserStats_first_solve_wins (uid : String) (results : List CaseResult)
    (r : CaseResult) (hu : r.uid = uid) (hw : r.isWin = true)
    (h : ∃ e ∈ results, e.uid = uid ∧ e.isWin = true ∧ e.caseId = r.caseId ∧
      e.finishedAt < r.finishedAt) :
    (∀ c v,
      mapGet (firstSuccessfulAttempts (sortByFinishedAt (queryWins uid results))) c = some v →
        v ∈ queryWins uid results ∧ v.caseId = c ∧
        ∀ u ∈ queryWins uid results, u.caseId = c → v.finishedAt ≤ u.finishedAt) ∧
    recomputeStats uid (results ++ [r]) = recomputeStats uid results := by
  constructor
  · intro c v hv
    obtain ⟨hvmem, hvc, hmin⟩ := firstSuccessfulAttempts_spec _ hv
    exact ⟨mem_sortByFinishedAt.mp hvmem, hvc,
      fun u hu2 huc => hmin u (mem_sortByFinishedAt.mpr hu2) huc⟩
  · exact recomputeStats_append_later uid results r hu hw h

/-- Witness for C1 at a concrete ledger: one winning record for `c1`, then a
later winning record for the same case with a higher score. -/
theorem updateUserStats_first_solve_wins_witness :
    (sampleWin2.uid = "u1" ∧ sampleWin2.isWin = true ∧
      (∃ e ∈ [sampleWin1], e.uid = "u1" ∧ e.isWin = true ∧
        e.caseId = sampleWin2.caseId ∧ e.finishedAt < sampleWin2.finishedAt)) ∧
    ((∀ c v,
      mapGet (firstSuccessfulAttempts (sortByFinishedAt (queryWins "u1" [sampleWin1]))) c =
          some v →
        v ∈ queryWins "u1" [sampleWin1] ∧ v.caseId = c ∧
        ∀ u ∈ queryWins "u1" [sampleWin1], u.caseId = c → v.finishedAt ≤ u.finishedAt) ∧
    recomputeStats "u1" ([sampleWin1] ++ [sampleWin2]) = recomputeStats "u1" [sampleWin1]) :=
  ⟨⟨by decide, by decide, by decide⟩,
    updateUserStats_first_solve_wins "u1" [sampleWin1] sampleWin2
      (by decide) (by decide) (by decide)⟩

/-- C2 (code bug): `onSubmitReport` performs no status check — its guard only
inspects the selections, the in-flight/modal flags, and session presence.  On
a session whose status is already `finished`, submitting the correct triple
for `case-001` again proceeds (no `AlreadyFinished` rejection exists in the
code), appends a second winning `ResultRecord` and reports success, contrary
to the claim; the code comment in `closeResultModal` ("If correct,
form should remain disabled") documents the intended rejection. -/
theorem onSubmitReport_finished_session_appends_second_win :
    finishedSession.status = CaseStatus.finished ∧
    (onSubmitReport case001 "suspect-003" "location-001" "weapon-001"
        false false (some finishedSession) 60000).map
      (fun eff => (eff.append.isWin, eff.result.type, eff.savedCase.attempts)) =
      some (true, ResultType.success, 2) := by
  constructor
  · rfl
  · decide

/-- C3: `updateCaseLeaderboard` overwrites the stored per-case entry exactly
when the new score strictly exceeds the stored one (or no entry exists) and
is a no-op otherwise; in particular the call sequence with scores
`[50, 30, 80, 80, 10]` leaves the stored entry at `score = 80`. -/
theorem updateCaseLeaderboard_monotonic :
    (∀ (prev : LeaderboardEntry) (uid displayName : String) (photoURL : Option String)
        (score durationMs attempts : Int),
      updateCaseLeaderboard (some prev) uid displayName photoURL score durationMs attempts =
        if prev.score < score then
          some { uid := uid, displayName := displayName, photoURL := photoURL,
                 score := score, durationMs := durationMs, attempts := attempts }
        else some prev) ∧
    (∀ (uid displayName : String) (photoURL : Option String)
        (score durationMs attempts : Int),
      updateCaseLeaderboard none uid displayName photoURL score durationMs attempts =
        some { uid := uid, displayName := displayName, photoURL := photoURL,
               score := score, durationMs := durationMs, attempts := attempts }) ∧
    (upsertScores none [50, 30, 80, 80, 10]).map (fun e => e.score) = some 80 := by
  refine ⟨?_, ?_, ?_⟩
  · intro prev uid displayName photoURL score durationMs attempts
    by_cases h : prev.score < score
    · rw [if_pos h]
      have hge : ¬ prev.score ≥ score := by omega
      simp [updateCaseLeaderboard, hge]
    · rw [if_neg h]
      have hge : prev.score ≥ score := by omega
      simp [updateCaseLeaderboard, hge]
  · intro uid displayName photoURL score durationMs attempts
    rfl
  · decide

/-- C4: the ledger-scan recompute is a deterministic function of the results
collection and, as a store transition, idempotent: a second run with no
records added in between writes the identical `UserStats` document (the
recompute reads only `results`, which it never modifies). -/
theorem updateUserStats_recompute_idempotent (uid : String) (s s2 : StoreState)
    (h : s.results = s2.results) :
    updateUserStatsOnline uid (updateUserStatsOnline uid s) = updateUserStatsOnline uid s ∧
    (updateUserStatsOnline uid s).stats = (updateUserStatsOnline uid s2).stats := by
  constructor
  · rfl
  · simp [updateUserStatsOnline, h]

/-- Witness for C4: two store states with the same results collection but
different cached stats documents. -/
theorem updateUserStats_recompute_idempotent_witness :
    ((⟨[sampleWin1], none⟩ : StoreState).results =
      (⟨[sampleWin1], some ⟨"u1", 0, 0, 0, 0⟩⟩ : StoreState).results) ∧
    (updateUserStatsOnline "u1" (updateUserStatsOnline "u1" ⟨[sampleWin1], none⟩) =
        updateUserStatsOnline "u1" ⟨[sampleWin1], none⟩ ∧
      (updateUserStatsOnline "u1" (⟨[sampleWin1], none⟩ : StoreState)).stats =
        (updateUserStatsOnline "u1" (⟨[sampleWin1], some ⟨"u1", 0, 0, 0, 0⟩⟩ : StoreState)).stats) :=
  ⟨by decide,
    updateUserStats_recompute_idempotent "u1" ⟨[sampleWin1], none⟩
      ⟨[sampleWin1], some ⟨"u1", 0, 0, 0, 0⟩⟩ (by decide)⟩

/-- C9: with the ledger reachable, `updateUserStats` writes the recomputed
stats as a full replace (`{ merge: false }`); with the ledger unreachable
(offline) it instead applies the simple increment — `solvedCases + 1`,
`totalScore + caseScore`, running-mean update of `averageTimeMs`,
`totalAttempts + attempts` — to the cached stats and merges
(`{ merge: true }`). -/
theorem updateUserStats_write_modes :
    (∀ (uid : String) (caseScore durationMs attempts : Int)
        (results : List CaseResult) (cached : Option UserStats),
      updateUserStats true uid caseScore durationMs attempts results cached =
        { mode := WriteMode.replace, stats := recomputeStats uid results }) ∧
    (∀ (uid : String) (caseScore durationMs attempts : Int)
        (results : List CaseResult) (existing : UserStats),
      updateUserStats false uid caseScore durationMs attempts results (some existing) =
        { mode := WriteMode.merge
          stats :=
            { uid := uid
              totalScore := existing.totalScore + caseScore
              solvedCases := existing.solvedCases + 1
              averageTimeMs :=
                jsRound (existing.averageTimeMs * existing.solvedCases + durationMs)
                  (existing.solvedCases + 1)
              totalAttempts := existing.totalAttempts + attempts } }) :=
  ⟨fun _ _ _ _ _ _ => rfl, fun _ _ _ _ _ _ => rfl⟩

/-- C10: with zero winning records in the ledger query, the recompute is
total: the mean is guarded (`solvedCases > 0 ? ... : 0`) and the stats
written are all zero, with no failure and no undefined division. -/
theorem recomputeStats_empty_guard (uid : String) (results : List CaseResult)
    (h : queryWins uid results = []) :
    recomputeStats uid results =
      { uid := uid, totalScore := 0, solvedCases := 0, averageTimeMs := 0,
        totalAttempts := 0 } := by
  unfold recomputeStats
  rw [h]
  rfl

/-- Witness for C10: a ledger holding only a losing record, so the winning
query is empty. -/
theorem recomputeStats_empty_guard_witness :
    queryWins "u1" [sampleLoss] = [] ∧
    recomputeStats "u1" [sampleLoss] =
      { uid := "u1", totalScore := 0, solvedCases := 0, averageTimeMs := 0,
        totalAttempts := 0 } :=
  ⟨by decide, recomputeStats_empty_guard "u1" [sampleLoss] (by decide)⟩

/-- Inversion of `onSubmitReport`: any call that proceeds past the guard has
a present session and produces exactly the correct-branch effects or the
wrong-branch effects, according to the validation of the selected triple. -/
theorem onSubmitReport_some_inv {caseData : Case} {fs fl fw : String} {sub modal : Bool}
    {oc : Option ActiveCase} {now : Int} {eff : SubmitEffects}
    (h : onSubmitReport caseData fs fl fw sub modal oc now = some eff) :
    ∃ ac, oc = some ac ∧
      (((fs == caseData.solution.suspectId && fl == caseData.solution.locationId &&
          fw == caseData.solution.weaponId) = true ∧
        eff =
          { savedCase := { ac with status := CaseStatus.finished, attempts := ac.attempts + 1 }
            append := { caseId := caseData.id, durationMs := now - ac.startedAt + ac.penaltyMs,
                        penaltyMs := ac.penaltyMs, attempts := ac.attempts + 1,
                        isWin := true, score := none }
            result := { type := ResultType.success,
                        duration := Int.fdiv (now - ac.startedAt + ac.penaltyMs) 1000,
                        attempts := ac.attempts + 1, penaltyMs := ac.penaltyMs } }) ∨
       ((fs == caseData.solution.suspectId && fl == caseData.solution.locationId &&
          fw == caseData.solution.weaponId) = false ∧
        eff =
          { savedCase :=
              { ac with attempts := ac.attempts + 1, penaltyMs := ac.penaltyMs + PENALTY_MS }
            append := { caseId := caseData.id,
                        durationMs := now - ac.startedAt + (ac.penaltyMs + PENALTY_MS),
                        penaltyMs := ac.penaltyMs + PENALTY_MS, attempts := ac.attempts + 1,
                        isWin := false, score := none }
            result := { type := ResultType.failure,
                        duration := Int.fdiv (now - ac.startedAt + (ac.penaltyMs + PENALTY_MS)) 1000,
                        attempts := ac.attempts + 1,
                        penaltyMs := ac.penaltyMs + PENALTY_MS } })) := by
  rcases oc with _ | ac
  · simp [onSubmitReport] at h
  · refine ⟨ac, rfl, ?_⟩
    by_cases hc : (fs == caseData.solution.suspectId && fl == caseData.solution.locationId &&
        fw == caseData.solution.weaponId) = true
    · left
      refine ⟨hc, ?_⟩
      simp only [onSubmitReport, hc, if_true] at h
      split at h
      · cases h
      · exact (Option.some_injective _ h).symm
    · right
      have hc2 : (fs == caseData.solution.suspectId && fl == caseData.solution.locationId &&
          fw == caseData.solution.weaponId) = false := by
        rwa [Bool.not_eq_true] at hc
      refine ⟨hc2, ?_⟩
      simp only [onSubmitReport, hc2, if_false] at h
      split at h
      · cases h
      · exact (Option.some_injective _ h).symm

/-- C5: every wrong submission on a playing session increments `attempts` by
exactly one and adds exactly `300000` ms to `penaltyMs`; a correct submission
increments `attempts`, leaves the penalty unchanged and finishes the session;
and three wrong submissions followed by a correct one on a session started at
`T` end with `penaltyMs = 3 × 300000` and a recorded
`durationMs ≥ (now − T) + 900000`. -/
theorem onSubmitReport_penalty_accumulation :
    (∀ (caseData : Case) (fs fl fw : String) (ac : ActiveCase) (now : Int)
        (eff : SubmitEffects),
      onSubmitReport caseData fs fl fw false false (some ac) now = some eff →
      (fs == caseData.solution.suspectId && fl == caseData.solution.locationId &&
        fw == caseData.solution.weaponId) = false →
      eff.savedCase.attempts = ac.attempts + 1 ∧
        eff.savedCase.penaltyMs = ac.penaltyMs + 300000) ∧
    (∀ (caseData : Case) (fs fl fw : String) (ac : ActiveCase) (now : Int)
        (eff : SubmitEffects),
      onSubmitReport caseData fs fl fw false false (some ac) now = some eff →
      (fs == caseData.solution.suspectId && fl == caseData.solution.locationId &&
        fw == caseData.solution.weaponId) = true →
      eff.savedCase.attempts = ac.attempts + 1 ∧ eff.savedCase.penaltyMs = ac.penaltyMs ∧
        eff.savedCase.status = CaseStatus.finished) ∧
    (∀ T t1 t2 t3 t4 : Int, ∃ e1 e2 e3 e4 : SubmitEffects,
      onSubmitReport case001 "suspect-002" "location-001" "weapon-001" false false
          (some (initializeActiveCase "case-001" T)) t1 = some e1 ∧
      onSubmitReport case001 "suspect-002" "location-001" "weapon-001" false false
          (some e1.savedCase) t2 = some e2 ∧
      onSubmitReport case001 "suspect-002" "location-001" "weapon-001" false false
          (some e2.savedCase) t3 = some e3 ∧
      onSubmitReport case001 "suspect-003" "location-001" "weapon-001" false false
          (some e3.savedCase) t4 = some e4 ∧
      e4.savedCase.penaltyMs = 3 * 300000 ∧
      (t4 - T) + 900000 ≤ e4.append.durationMs) := by
  refine ⟨?_, ?_, ?_⟩
  · intro caseData fs fl fw ac now eff h hwrong
    obtain ⟨ac2, hoc, hcase⟩ := onSubmitReport_some_inv h
    injection hoc with hac
    subst hac
    rcases hcase with ⟨hc, heff⟩ | ⟨hc, heff⟩
    · rw [hwrong] at hc
      cases hc
    · subst heff
      exact ⟨rfl, by norm_num [PENALTY_MS]⟩
  · intro caseData fs fl fw ac now eff h hcorrect
    obtain ⟨ac2, hoc, hcase⟩ := onSubmitReport_some_inv h
    injection hoc with hac
    subst hac
    rcases hcase with ⟨hc, heff⟩ | ⟨hc, heff⟩
    · subst heff
      exact ⟨rfl, rfl, rfl⟩
    · rw [hcorrect] at hc
      cases hc
  · intro T t1 t2 t3 t4
    refine
      ⟨{ savedCase := { caseId := "case-001", status := CaseStatus.playing, startedAt := T,
                        attempts := 1, penaltyMs := 300000 }
         append := { caseId := "case-001", durationMs := t1 - T + 300000, penaltyMs := 300000,
                     attempts := 1, isWin := false, score := none }
         result := { type := ResultType.failure, duration := Int.fdiv (t1 - T + 300000) 1000,
                     attempts := 1, penaltyMs := 300000 } },
       { savedCase := { caseId := "case-001", status := CaseStatus.playing, startedAt := T,
                        attempts := 2, penaltyMs := 600000 }
         append := { caseId := "case-001", durationMs := t2 - T + 600000, penaltyMs := 600000,
                     attempts := 2, isWin := false, score := none }
         result := { type := ResultType.failure, duration := Int.fdiv (t2 - T + 600000) 1000,
                     attempts := 2, penaltyMs := 600000 } },
       { savedCase := { caseId := "case-001", status := CaseStatus.playing, startedAt := T,
                        attempts := 3, penaltyMs := 900000 }
         append := { caseId := "case-001", durationMs := t3 - T + 900000, penaltyMs := 900000,
                     attempts := 3, isWin := false, score := none }
         result := { type := ResultType.failure, duration := Int.fdiv (t3 - T + 900000) 1000,
                     attempts := 3, penaltyMs := 900000 } },
       { savedCase := { caseId := "case-001", status := CaseStatus.finished, startedAt := T,
                        attempts := 4, penaltyMs := 900000 }
         append := { caseId := "case-001", durationMs := t4 - T + 900000, penaltyMs := 900000,
                     attempts := 4, isWin := true, score := none }
         result := { type := ResultType.success, duration := Int.fdiv (t4 - T + 900000) 1000,
                     attempts := 4, penaltyMs := 900000 } },
       rfl, rfl, rfl, rfl, rfl, le_refl _⟩

/-- Witness for C5: a wrong and a correct submission on a fresh session for
`case-001` started at 0. -/
theorem onSubmitReport_penalty_accumulation_witness :
    (onSubmitReport case001 "suspect-002" "location-001" "weapon-001" false false
        (some (initializeActiveCase "case-001" 0)) 1000 = some wrongEffect0 ∧
      ("suspect-002" == case001.solution.suspectId &&
        "location-001" == case001.solution.locationId &&
        "weapon-001" == case001.solution.weaponId) = false ∧
      onSubmitReport case001 "suspect-003" "location-001" "weapon-001" false false
        (some (initializeActiveCase "case-001" 0)) 5000 = some winEffect0 ∧
      ("suspect-003" == case001.solution.suspectId &&
        "location-001" == case001.solution.locationId &&
        "weapon-001" == case001.solution.weaponId) = true) ∧
    ((wrongEffect0.savedCase.attempts = (initializeActiveCase "case-001" 0).attempts + 1 ∧
      wrongEffect0.savedCase.penaltyMs =
        (initializeActiveCase "case-001" 0).penaltyMs + 300000) ∧
     (winEffect0.savedCase.attempts = (initializeActiveCase "case-001" 0).attempts + 1 ∧
      winEffect0.savedCase.penaltyMs = (initializeActiveCase "case-001" 0).penaltyMs ∧
      winEffect0.savedCase.status = CaseStatus.finished)) :=
  ⟨⟨by decide, by decide, by decide, by decide⟩,
   ⟨onSubmitReport_penalty_accumulation.1 case001 "suspect-002" "location-001" "weapon-001"
      (initializeActiveCase "case-001" 0) 1000 wrongEffect0 (by decide) (by decide),
    onSubmitReport_penalty_accumulation.2.1 case001 "suspect-003" "location-001" "weapon-001"
      (initializeActiveCase "case-001" 0) 5000 winEffect0 (by decide) (by decide)⟩⟩

/-- C6: duration is derived, never stored — the session record carries no
duration field and every read recomputes
`⌊(now − startedAt + penaltyMs) / 1000⌋`; and in the end-to-end scenario on
`case-001` (solution `(suspect-003, location-001, weapon-001)`, so
`(suspect-002, location-001, weapon-001)` is wrong) a wrong submission then
the correct triple yields a success result with
`duration = ⌊((now − T) + 300000) / 1000⌋`, `attempts = 2`,
`penaltyMs = 300000`. -/
theorem onSubmitReport_duration_derived (T t1 now : Int) :
    getCaseById "case-001" = some case001 ∧
    case001.solution =
      { suspectId := "suspect-003", locationId := "location-001",
        weaponId := "weapon-001" } ∧
    (∃ e1 e2 : SubmitEffects,
      onSubmitReport case001 "suspect-002" "location-001" "weapon-001" false false
          (some (initializeActiveCase "case-001" T)) t1 = some e1 ∧
      e1.result.type = ResultType.failure ∧ e1.savedCase.attempts = 1 ∧
      e1.savedCase.penaltyMs = 300000 ∧
      (∀ t : Int, currentDuration (some e1.savedCase) t =
        Int.fdiv ((t - T) + 300000) 1000) ∧
      onSubmitReport case001 "suspect-003" "location-001" "weapon-001" false false
          (some e1.savedCase) now = some e2 ∧
      e2.savedCase.status = CaseStatus.finished ∧ e2.savedCase.attempts = 2 ∧
      e2.savedCase.penaltyMs = 300000 ∧
      e2.result = { type := ResultType.success,
                    duration := Int.fdiv ((now - T) + 300000) 1000,
                    attempts := 2, penaltyMs := 300000 }) := by
  refine ⟨by decide, rfl, ?_⟩
  exact
    ⟨{ savedCase := { caseId := "case-001", status := CaseStatus.playing, startedAt := T,
                      attempts := 1, penaltyMs := 300000 }
       append := { caseId := "case-001", durationMs := t1 - T + 300000, penaltyMs := 300000,
                   attempts := 1, isWin := false, score := none }
       result := { type := ResultType.failure, duration := Int.fdiv (t1 - T + 300000) 1000,
                   attempts := 1, penaltyMs := 300000 } },
     { savedCase := { caseId := "case-001", status := CaseStatus.finished, startedAt := T,
                      attempts := 2, penaltyMs := 300000 }
       append := { caseId := "case-001", durationMs := now - T + 300000, penaltyMs := 300000,
                   attempts := 2, isWin := true, score := none }
       result := { type := ResultType.success, duration := Int.fdiv (now - T + 300000) 1000,
                   attempts := 2, penaltyMs := 300000 } },
     rfl, rfl, rfl, rfl, fun t => rfl, rfl, rfl, rfl, rfl, rfl⟩

/-- C7: `saveCaseResult` appends a freshly identified record and never
overwrites: the prior documents are all preserved unchanged, the new
document id differs from every existing id, and the freshness invariant is
maintained, so repeated calls — same `(userId, caseId)` included — keep the
full attempt history reconstructible. -/
theorem saveCaseResult_append_only (col : ResultsCollection)
    (hinv : ∀ p ∈ col.docs, p.1 < col.nextId)
    (uid caseId : String) (now durationMs penaltyMs attempts : Int) (isWin : Bool)
    (score : Option Int) :
    (saveCaseResult col uid caseId now durationMs penaltyMs attempts isWin score).docs =
      col.docs ++
        [(col.nextId,
          buildResultRecord uid caseId now durationMs penaltyMs attempts isWin score)] ∧
    (∀ p ∈ col.docs,
      p ∈ (saveCaseResult col uid caseId now durationMs penaltyMs attempts isWin score).docs) ∧
    (∀ p ∈ col.docs, p.1 ≠ col.nextId) ∧
    (∀ p ∈ (saveCaseResult col uid caseId now durationMs penaltyMs attempts isWin score).docs,
      p.1 <
        (saveCaseResult col uid caseId now durationMs penaltyMs attempts isWin score).nextId) := by
  refine ⟨rfl, ?_, ?_, ?_⟩
  · intro p hp
    exact List.mem_append_left _ hp
  · intro p hp
    exact Nat.ne_of_lt (hinv p hp)
  · intro p hp
    rcases List.mem_append.mp hp with hp | hp
    · exact Nat.lt_succ_of_lt (hinv p hp)
    · have hp2 : p =
          (col.nextId, buildResultRecord uid caseId now durationMs penaltyMs attempts isWin score) := by
        simpa using hp
      rw [hp2]
      exact Nat.lt_succ_self _

/-- Witness for C7: a collection already holding a record for
`("u1", "c1")` receives another record for the same pair. -/
theorem saveCaseResult_append_only_witness :
    (∀ p ∈ (⟨1, [(0, sampleWin1)]⟩ : ResultsCollection).docs,
      p.1 < (⟨1, [(0, sampleWin1)]⟩ : ResultsCollection).nextId) ∧
    ((saveCaseResult ⟨1, [(0, sampleWin1)]⟩ "u1" "c1" 40 2000 0 1 true (some 10)).docs =
        [(0, sampleWin1)] ++ [(1, buildResultRecord "u1" "c1" 40 2000 0 1 true (some 10))] ∧
      (∀ p ∈ [(0, sampleWin1)],
        p ∈ (saveCaseResult ⟨1, [(0, sampleWin1)]⟩ "u1" "c1" 40 2000 0 1 true (some 10)).docs) ∧
      (∀ p ∈ [(0, sampleWin1)], p.1 ≠ 1) ∧
      (∀ p ∈ (saveCaseResult ⟨1, [(0, sampleWin1)]⟩ "u1" "c1" 40 2000 0 1 true (some 10)).docs,
        p.1 < (saveCaseResult ⟨1, [(0, sampleWin1)]⟩ "u1" "c1" 40 2000 0 1 true (some 10)).nextId)) :=
  ⟨by decide,
    saveCaseResult_append_only ⟨1, [(0, sampleWin1)]⟩ (by decide) "u1" "c1" 40 2000 0 1 true
      (some 10)⟩

/-- C8 counterexample: the submission path passes no score argument, so the
winning submission writes a record with `isWin = true` and no `score` field —
refuting "`score` present iff `isWin`" for records written by this path. -/
theorem saveCaseResult_win_without_score_cex :
    ((saveCaseResult ⟨0, []⟩ "u1" "case-001" 5000 5000 0 1 true none).docs.map
      (fun p => (p.2.isWin, p.2.score))) = [(true, none)] ∧
    (onSubmitReport case001 "suspect-003" "location-001" "weapon-001" false false
        (some (initializeActiveCase "case-001" 0)) 5000).map
      (fun eff => eff.append.score) = some none ∧
    ¬ (∀ p ∈ (saveCaseResult ⟨0, []⟩ "u1" "case-001" 5000 5000 0 1 true none).docs,
        (p.2.score ≠ none ↔ p.2.isWin = true)) := by
  refine ⟨by decide, by decide, ?_⟩
  intro hall
  have := (hall (0, buildResultRecord "u1" "case-001" 5000 5000 0 1 true none)
    (by decide)).mpr (by decide)
  exact this (by decide)

/-- C8 (amended): `score` is present only if `isWin` — a losing record never
carries a score — and the submission path passes no score argument, so every
record it writes, winning ones included, omits `score`. -/
theorem saveCaseResult_score_only_if_win :
    (∀ (uid caseId : String) (now durationMs penaltyMs attempts : Int) (score : Option Int),
      (buildResultRecord uid caseId now durationMs penaltyMs attempts false score).score =
        none) ∧
    (∀ (uid caseId : String) (now durationMs penaltyMs attempts : Int) (isWin : Bool)
        (score : Option Int),
      (buildResultRecord uid caseId now durationMs penaltyMs attempts isWin score).score ≠
          none →
        isWin = true) ∧
    (∀ (caseData : Case) (fs fl fw : String) (sub modal : Bool) (oc : Option ActiveCase)
        (now : Int) (eff : SubmitEffects),
      onSubmitReport caseData fs fl fw sub modal oc now = some eff →
        eff.append.score = none) := by
  refine ⟨fun _ _ _ _ _ _ _ => rfl, ?_, ?_⟩
  · intro uid caseId now durationMs penaltyMs attempts isWin score hne
    cases isWin
    · exact absurd rfl hne
    · rfl
  · intro caseData fs fl fw sub modal oc now eff h
    obtain ⟨ac, hoc, hcase⟩ := onSubmitReport_some_inv h
    rcases hcase with ⟨_, heff⟩ | ⟨_, heff⟩ <;> subst heff <;> rfl

/-- Witness for the amended C8: a winning record built with a score present,
and the concrete winning submission of `case-001`. -/
theorem saveCaseResult_score_only_if_win_witness :
    ((buildResultRecord "u1" "c1" 1 2 3 4 true (some 5)).score ≠ none ∧
      onSubmitReport case001 "suspect-003" "location-001" "weapon-001" false false
        (some (initializeActiveCase "case-001" 0)) 5000 = some winEffect0) ∧
    (true = true ∧ winEffect0.append.score = none) :=
  ⟨⟨by decide, by decide⟩,
   ⟨saveCaseResult_score_only_if_win.2.1 "u1" "c1" 1 2 3 4 true (some 5) (by decide),
    saveCaseResult_score_only_if_win.2.2 case001 "suspect-003" "location-001" "weapon-001"
      false false (some (initializeActiveCase "case-001" 0)) 5000 winEffect0 (by decide)⟩⟩

end NoirNote
